import Mathlib

/-!
Verification of the AVR_I2C master driver (src/Sources/i2c.c, i2c.h).

The driver is shallowly embedded: each bus primitive emits a trace of
abstract bus events, machine bytes are `Nat` with `% 256` at the points
where the C code truncates to `uint8_t`, the caller-supplied receive
buffer is a `List Nat` updated in place via `List.set` (mirroring the
`*_Data++ = ...` pointer writes), and the bytes driven by the slave
during a read phase are an input stream `List Nat`.
-/

namespace I2c

/-- Abstract bus events, the observable actions the master performs on the
two-wire bus: a START condition, a STOP condition, transmission of one
byte, and reception of one byte together with the ACK (`true`) / NACK
(`false`) the master answers with. -/
inductive Event where
  | start : Event
  | stop : Event
  | write : Nat → Event
  | read : Bool → Event
deriving DecidableEq

/-- Constant `__i2c_WriteCmd` from i2c.h: direction bit for a write (0). -/
def __i2c_WriteCmd : Nat := 0x00

/-- Constant `__i2c_ReadCmd` from i2c.h: direction bit for a read (1). -/
def __i2c_ReadCmd : Nat := 0x01

/-- Constant `__i2c_ackCmd` from i2c.h (0x01), as the `bool` it is passed
to `i2c_Read` as: master ACKs the received byte. -/
def __i2c_ackCmd : Bool := true

/-- Constant `__i2c_nackCmd` from i2c.h (0x00), as the `bool` it is passed
to `i2c_Read` as: master NACKs the received byte. -/
def __i2c_nackCmd : Bool := false

/-- `i2c_Start` from i2c.c: drives a START condition (and busy-waits on
TWINT, which the embedding models as immediate completion). -/
def i2c_Start : List Event := [Event.start]

/-- `i2c_Stop` from i2c.c: drives a STOP condition. -/
def i2c_Stop : List Event := [Event.stop]

/-- `i2c_Write` from i2c.c: loads TWDR with the byte and transmits it.
The `% 256` is the `uint8_t` truncation of the argument at the call
boundary. -/
def i2c_Write (b : Nat) : List Event := [Event.write (b % 256)]

/-- `i2c_Read` from i2c.c: receives one byte from the slave (the head of
the remaining slave stream; if the slave drives nothing TWDR is modelled
as 0) and answers with ACK or NACK as instructed. -/
def i2c_Read (ackNack : Bool) (stream : List Nat) : Nat × List Event :=
  (stream.headD 0 % 256, [Event.read ackNack])

/-- The `while(_dataLength){ i2c_Write(*_Data++); _dataLength--; }` loop of
`i2c_writeAddress` and of the write phase of `i2c_readSequential`: the
buffer view (pointer plus length) is the list `data`. -/
def writeLoop : List Nat → List Event
  | [] => []
  | b :: rest => i2c_Write b ++ writeLoop rest

/-- The `while(_dataLength){ *_Data++ = i2c_Read(...); _dataLength--; }`
loop of `i2c_readAdress` and of the read phase of `i2c_readSequential`:
`remaining` is `_dataLength`, `idx` the offset of the moving pointer
`_Data` into the caller's buffer `buf`, and `stream` the bytes the slave
drives. Returns the updated buffer and the emitted events. -/
def readLoopBuf : Nat → Nat → List Nat → List Nat → List Nat × List Event
  | 0, _, _, buf => (buf, [])
  | n + 1, idx, stream, buf =>
    let r := i2c_Read (if n + 1 = 1 then __i2c_nackCmd else __i2c_ackCmd) stream
    let rest := readLoopBuf n (idx + 1) stream.tail (buf.set idx r.1)
    (rest.1, r.2 ++ rest.2)

/-- `i2c_writeAddress` from i2c.c: Start, address byte
`(_address << 1) | __i2c_WriteCmd`, the data bytes, Stop. Returns the
emitted bus trace. -/
def i2c_writeAddress (a : Nat) (data : List Nat) : List Event :=
  i2c_Start ++ i2c_Write ((a <<< 1) ||| __i2c_WriteCmd) ++ writeLoop data ++ i2c_Stop

/-- `i2c_readAdress` from i2c.c: Start, address byte
`(_address << 1) | __i2c_ReadCmd`, `count` reads stored into the caller's
buffer, Stop. Returns the updated buffer and the emitted bus trace. -/
def i2c_readAdress (a count : Nat) (stream buf : List Nat) :
    List Nat × List Event :=
  let r := readLoopBuf count 0 stream buf
  (r.1, i2c_Start ++ i2c_Write ((a <<< 1) ||| __i2c_ReadCmd) ++ r.2 ++ i2c_Stop)

/-- `i2c_readSequential` from i2c.c: Start, address byte with the write
direction bit, the tx bytes, a repeated Start (no Stop in between),
address byte with the read direction bit, `rxCount` reads stored into the
caller's buffer, one terminal Stop. -/
def i2c_readSequential (a : Nat) (tx : List Nat) (rxCount : Nat)
    (stream rxBuf : List Nat) : List Nat × List Event :=
  let r := readLoopBuf rxCount 0 stream rxBuf
  (r.1, i2c_Start ++ i2c_Write ((a <<< 1) ||| __i2c_WriteCmd) ++ writeLoop tx
        ++ i2c_Start ++ i2c_Write ((a <<< 1) ||| __i2c_ReadCmd) ++ r.2 ++ i2c_Stop)

/-- TWI peripheral register file of the ATmega328 as far as `i2c_Init`
touches it: the status register TWSR (holding the prescaler bits), the
bit-rate register TWBR and the control register TWCR. Each holds an 8-bit
value. -/
structure TwiRegs where
  TWSR : Nat
  TWBR : Nat
  TWCR : Nat
deriving DecidableEq

/-- Bit position TWPS0 (prescaler bit 0) in TWSR, from the AVR device
header. -/
def TWPS0 : Nat := 0

/-- Bit position TWPS1 (prescaler bit 1) in TWSR, from the AVR device
header. -/
def TWPS1 : Nat := 1

/-- Bit position TWEN (TWI enable) in TWCR, from the AVR device header. -/
def TWEN : Nat := 2

/-- Modelled from the spec: the `bitSet(reg, bit)` macro lives in
aKaReZa.h, which is not part of this repository; per spec section 6 it is
the Peripheral Register Interface primitive `setControlBit`, a single-bit
set (`reg |= (1 << bit)`) on an 8-bit register. -/
def bitSet (r b : Nat) : Nat := (r ||| (1 <<< b)) % 256

/-- Modelled from the spec: the `bitClear(reg, bit)` macro lives in
aKaReZa.h, which is not part of this repository; per spec section 6 it is
the Peripheral Register Interface primitive `clearControlBit`, a
single-bit clear (`reg &= ~(1 << bit)`) on an 8-bit register. -/
def bitClear (r b : Nat) : Nat := r &&& (255 ^^^ ((1 <<< b) % 256))

/-- `i2c_Init` from i2c.c: clears both prescaler bits in TWSR, sets TWBR
to 72 (100 kHz SCL at 16 MHz) and sets the enable bit in TWCR. The three
registers are distinct, so the straight-line statement sequence is the
parallel record update. -/
def i2c_Init (s : TwiRegs) : TwiRegs :=
  { TWSR := bitClear (bitClear s.TWSR TWPS0) TWPS1
    TWBR := 72
    TWCR := bitSet s.TWCR TWEN }

/-- A simulated register-addressed slave for the round-trip scenario: on
register-select byte 0x10 it drives the bytes 0xAA then 0xBB during the
read phase, and nothing otherwise. -/
def demoSlave (regSelect : List Nat) : List Nat :=
  if regSelect = [0x10] then [0xAA, 0xBB] else []

/-- Shifting left by one bit is doubling. -/
theorem shiftl1 (a : Nat) : a <<< 1 = 2 * a := by
  rw [Nat.shiftLeft_eq, pow_one, Nat.mul_comm]

/-- Setting the least significant bit of an even number adds one. -/
theorem two_mul_lor_one (k : Nat) : 2 * k ||| 1 = 2 * k + 1 := by
  have h1 : 2 * k = Nat.bit false k := by simp [Nat.bit_false]
  have h2 : (1 : Nat) = Nat.bit true 0 := by simp [Nat.bit_true]
  rw [h1, h2, Nat.lor_bit]
  simp [Nat.bit_true]

/-- The address byte a read transaction transmits: shift, set the
direction bit, truncate to `uint8_t`. -/
theorem addrRead_eq (a : Nat) :
    ((a <<< 1) ||| __i2c_ReadCmd) % 256 = 2 * (a % 128) + 1 := by
  rw [__i2c_ReadCmd, shiftl1, two_mul_lor_one]
  omega

/-- The address byte a write transaction transmits: shift, direction bit
zero, truncate to `uint8_t`. -/
theorem addrWrite_eq (a : Nat) :
    ((a <<< 1) ||| __i2c_WriteCmd) % 256 = 2 * (a % 128) := by
  rw [__i2c_WriteCmd, shiftl1, Nat.or_zero]
  omega

/-- The write loop emits exactly one write event per buffer byte, in
buffer order. -/
theorem writeLoop_eq_map (d : List Nat) :
    writeLoop d = d.map (fun x => Event.write (x % 256)) := by
  induction d with
  | nil => rfl
  | cons b rest ih => simp [writeLoop, i2c_Write, ih]

/-- A nonempty read loop ACKs every byte except the last, which it
NACKs. -/
theorem readLoopBuf_events_succ (n : Nat) :
    ∀ idx s b, (readLoopBuf (n + 1) idx s b).2 =
      List.replicate n (Event.read true) ++ [Event.read false] := by
  induction n with
  | zero =>
    intro idx s b
    simp [readLoopBuf, i2c_Read, __i2c_nackCmd]
  | succ n ih =>
    intro idx s b
    have step : (readLoopBuf (n + 1 + 1) idx s b).2 =
        Event.read (if n + 1 + 1 = 1 then __i2c_nackCmd else __i2c_ackCmd) ::
          (readLoopBuf (n + 1) (idx + 1) s.tail
            (b.set idx (s.headD 0 % 256))).2 := rfl
    rw [step, ih]
    simp [__i2c_ackCmd, List.replicate_succ]

/-- The read loop leaves the buffer length unchanged. -/
theorem readLoopBuf_length (n : Nat) :
    ∀ idx s b, ((readLoopBuf n idx s b).1).length = b.length := by
  induction n with
  | zero => intro idx s b; rfl
  | succ n ih =>
    intro idx s b
    simp [readLoopBuf, ih]

/-- The read loop only writes the `n` buffer cells starting at `idx`. -/
theorem readLoopBuf_frame (n : Nat) :
    ∀ idx s b j, (j < idx ∨ idx + n ≤ j) →
      ((readLoopBuf n idx s b).1)[j]? = b[j]? := by
  induction n with
  | zero => intro idx s b j _; rfl
  | succ n ih =>
    intro idx s b j h
    have hne : idx ≠ j := by omega
    have step : (readLoopBuf (n + 1) idx s b).1 =
        (readLoopBuf n (idx + 1) s.tail
          (b.set idx (s.headD 0 % 256))).1 := by
      simp [readLoopBuf, i2c_Read]
    rw [step, ih (idx + 1) s.tail _ j (by omega), List.getElem?_set_ne hne]

/-- Normal form of the `i2c_writeAddress` bus trace. -/
theorem writeAddress_trace (a : Nat) (d : List Nat) :
    i2c_writeAddress a d =
      Event.start :: Event.write (2 * (a % 128)) ::
        (d.map (fun x => Event.write (x % 256)) ++ [Event.stop]) := by
  simp [i2c_writeAddress, i2c_Start, i2c_Stop, i2c_Write, writeLoop_eq_map,
    addrWrite_eq]

/-- Normal form of the `i2c_readAdress` bus trace. -/
theorem readAdress_trace (a c : Nat) (s b : List Nat) :
    (i2c_readAdress a c s b).2 =
      Event.start :: Event.write (2 * (a % 128) + 1) ::
        ((readLoopBuf c 0 s b).2 ++ [Event.stop]) := by
  simp [i2c_readAdress, i2c_Start, i2c_Stop, i2c_Write, addrRead_eq]

/-- Normal form of the `i2c_readSequential` bus trace. -/
theorem readSequential_trace (a : Nat) (tx : List Nat) (c : Nat)
    (s b : List Nat) :
    (i2c_readSequential a tx c s b).2 =
      Event.start :: Event.write (2 * (a % 128)) ::
        (tx.map (fun x => Event.write (x % 256)) ++
          Event.start :: Event.write (2 * (a % 128) + 1) ::
            ((readLoopBuf c 0 s b).2 ++ [Event.stop])) := by
  simp [i2c_readSequential, i2c_Start, i2c_Stop, i2c_Write, writeLoop_eq_map,
    addrRead_eq, addrWrite_eq]

/-- The buffer returned by `i2c_readAdress` is exactly the read loop's
buffer. -/
theorem readAdress_fst (a c : Nat) (s b : List Nat) :
    (i2c_readAdress a c s b).1 = (readLoopBuf c 0 s b).1 := rfl

/-- The buffer returned by `i2c_readSequential` is exactly the read
loop's buffer. -/
theorem readSequential_fst (a : Nat) (tx : List Nat) (c : Nat)
    (s b : List Nat) :
    (i2c_readSequential a tx c s b).1 = (readLoopBuf c 0 s b).1 := rfl

/-- The events of the read loop depend only on the count, not on the
slave's bytes, the buffer or the pointer offset. -/
theorem readLoopBuf_events_congr (c idx1 idx2 : Nat) (s1 b1 s2 b2 : List Nat) :
    (readLoopBuf c idx1 s1 b1).2 = (readLoopBuf c idx2 s2 b2).2 := by
  cases c with
  | zero => rfl
  | succ n => rw [readLoopBuf_events_succ, readLoopBuf_events_succ]

/-- A write phase contains no START events. -/
theorem count_start_writeMap (d : List Nat) :
    (d.map (fun x => Event.write (x % 256))).count Event.start = 0 := by
  rw [List.count_eq_zero]
  simp

/-- A write phase contains no STOP events. -/
theorem count_stop_writeMap (d : List Nat) :
    (d.map (fun x => Event.write (x % 256))).count Event.stop = 0 := by
  rw [List.count_eq_zero]
  simp

/-- A read phase contains no START events. -/
theorem count_start_readEvs (c idx : Nat) (s b : List Nat) :
    ((readLoopBuf c idx s b).2).count Event.start = 0 := by
  rw [List.count_eq_zero]
  cases c with
  | zero => simp [readLoopBuf]
  | succ n =>
    rw [readLoopBuf_events_succ]
    simp [List.mem_replicate]

/-- A read phase contains no STOP events. -/
theorem count_stop_readEvs (c idx : Nat) (s b : List Nat) :
    ((readLoopBuf c idx s b).2).count Event.stop = 0 := by
  rw [List.count_eq_zero]
  cases c with
  | zero => simp [readLoopBuf]
  | succ n =>
    rw [readLoopBuf_events_succ]
    simp [List.mem_replicate]

/-- A list that is a concatenation ending in `[z]` has last element `z`. -/
theorem getLast_of_concat {l m : List Event} {z : Event} (h : l = m ++ [z]) :
    l.getLast? = some z := by
  rw [h, List.getLast?_concat]

/-- The `i2c_writeAddress` trace ends with the STOP event. -/
theorem writeAddress_getLast (a : Nat) (d : List Nat) :
    (i2c_writeAddress a d).getLast? = some Event.stop := by
  refine getLast_of_concat
    (m := Event.start :: Event.write (2 * (a % 128)) ::
      d.map (fun x => Event.write (x % 256))) ?_
  rw [writeAddress_trace]
  simp

/-- The `i2c_readAdress` trace ends with the STOP event. -/
theorem readAdress_getLast (a c : Nat) (s b : List Nat) :
    ((i2c_readAdress a c s b).2).getLast? = some Event.stop := by
  refine getLast_of_concat
    (m := Event.start :: Event.write (2 * (a % 128) + 1) ::
      (readLoopBuf c 0 s b).2) ?_
  rw [readAdress_trace]
  simp

/-- The `i2c_readSequential` trace ends with the STOP event. -/
theorem readSequential_getLast (a : Nat) (tx : List Nat) (c : Nat)
    (s b : List Nat) :
    ((i2c_readSequential a tx c s b).2).getLast? = some Event.stop := by
  refine getLast_of_concat
    (m := Event.start :: Event.write (2 * (a % 128)) ::
      (tx.map (fun x => Event.write (x % 256)) ++
        Event.start :: Event.write (2 * (a % 128) + 1) ::
          (readLoopBuf c 0 s b).2)) ?_
  rw [readSequential_trace]
  simp

/-- C1: for every 7-bit address `a` and count `c ≥ 1`, `i2c_readAdress`
issues one Start, one address byte `(a<<1)|1`, then `c` reads whose
ACK/NACK sequence is ACK repeated `c-1` times followed by exactly one
NACK on the final byte, then one Stop. -/
theorem c1_readBurst_trace (a c : Nat) (s b : List Nat) (ha : a < 128)
    (hc : 1 ≤ c) :
    (i2c_readAdress a c s b).2 =
      Event.start :: Event.write (2 * a + 1) ::
        (List.replicate (c - 1) (Event.read true) ++
          [Event.read false, Event.stop]) := by
  obtain ⟨n, rfl⟩ : ∃ n, c = n + 1 := ⟨c - 1, by omega⟩
  rw [readAdress_trace, readLoopBuf_events_succ, Nat.mod_eq_of_lt ha]
  simp

/-- Witness for C1 at the boundary count 1: the only byte is NACKed. -/
theorem c1_witness :
    (i2c_readAdress 0x50 1 [0xAA] [0]).2 =
      Event.start :: Event.write (2 * 0x50 + 1) ::
        (List.replicate (1 - 1) (Event.read true) ++
          [Event.read false, Event.stop]) :=
  c1_readBurst_trace 0x50 1 [0xAA] [0] (by decide) (by decide)

/-- C2: for every address `a < 128` and nonempty byte sequence `d`,
`i2c_writeAddress` issues one Start, one address byte `(a<<1)|0`, then
the bytes of `d` in original order, then one Stop. -/
theorem c2_writeBurst_trace (a : Nat) (d : List Nat) (ha : a < 128)
    (hd : d ≠ []) :
    i2c_writeAddress a d =
      Event.start :: Event.write (2 * a) ::
        (d.map (fun x => Event.write (x % 256)) ++ [Event.stop]) := by
  rw [writeAddress_trace, Nat.mod_eq_of_lt ha]

/-- Witness for C2 at address 0x3C with two data bytes. -/
theorem c2_witness :
    i2c_writeAddress 0x3C [1, 2] =
      Event.start :: Event.write (2 * 0x3C) ::
        ([1, 2].map (fun x => Event.write (x % 256)) ++ [Event.stop]) :=
  c2_writeBurst_trace 0x3C [1, 2] (by decide) (by decide)

/-- C3: `i2c_readSequential` issues exactly two Starts and one Stop; the
whole write phase precedes the second Start with no Stop in between;
after the second Start it sends the address with the read bit and uses
the same ACK-all-but-NACK-last sequencing as the burst read, then the one
terminal Stop. -/
theorem c3_writeThenRead_trace (a : Nat) (tx : List Nat) (c : Nat)
    (s b : List Nat) :
    (i2c_readSequential a tx c s b).2 =
      Event.start :: Event.write (2 * (a % 128)) ::
        (tx.map (fun x => Event.write (x % 256)) ++
          Event.start :: Event.write (2 * (a % 128) + 1) ::
            ((if c = 0 then []
              else List.replicate (c - 1) (Event.read true) ++
                [Event.read false]) ++ [Event.stop]))
    ∧ ((i2c_readSequential a tx c s b).2).count Event.start = 2
    ∧ ((i2c_readSequential a tx c s b).2).count Event.stop = 1 := by
  have htrace : (i2c_readSequential a tx c s b).2 =
      Event.start :: Event.write (2 * (a % 128)) ::
        (tx.map (fun x => Event.write (x % 256)) ++
          Event.start :: Event.write (2 * (a % 128) + 1) ::
            ((if c = 0 then []
              else List.replicate (c - 1) (Event.read true) ++
                [Event.read false]) ++ [Event.stop])) := by
    rw [readSequential_trace]
    cases c with
    | zero => rfl
    | succ n => rw [readLoopBuf_events_succ]; simp
  refine ⟨htrace, ?_, ?_⟩
  · rw [readSequential_trace]
    simp [List.count_cons, List.count_append, count_start_writeMap,
      count_start_readEvs]
  · rw [readSequential_trace]
    simp [List.count_cons, List.count_append, count_stop_writeMap,
      count_stop_readEvs]

/-- C4: every transaction's trace begins with a Start, contains exactly
one Start (two for the repeated-start transaction), contains exactly one
Stop, and ends with that Stop on every path. -/
theorem c4_framing_invariant (a c rc : Nat) (d tx : List Nat)
    (s b : List Nat) :
    ((i2c_writeAddress a d).count Event.start = 1
      ∧ (i2c_writeAddress a d).count Event.stop = 1
      ∧ (i2c_writeAddress a d).head? = some Event.start
      ∧ (i2c_writeAddress a d).getLast? = some Event.stop)
    ∧ (((i2c_readAdress a c s b).2).count Event.start = 1
      ∧ ((i2c_readAdress a c s b).2).count Event.stop = 1
      ∧ ((i2c_readAdress a c s b).2).head? = some Event.start
      ∧ ((i2c_readAdress a c s b).2).getLast? = some Event.stop)
    ∧ (((i2c_readSequential a tx rc s b).2).count Event.start = 2
      ∧ ((i2c_readSequential a tx rc s b).2).count Event.stop = 1
      ∧ ((i2c_readSequential a tx rc s b).2).head? = some Event.start
      ∧ ((i2c_readSequential a tx rc s b).2).getLast? = some Event.stop) := by
  refine ⟨⟨?_, ?_, ?_, ?_⟩, ⟨?_, ?_, ?_, ?_⟩, ⟨?_, ?_, ?_, ?_⟩⟩
  · rw [writeAddress_trace]
    simp [List.count_cons, List.count_append, count_start_writeMap]
  · rw [writeAddress_trace]
    simp [List.count_cons, List.count_append, count_stop_writeMap]
  · rw [writeAddress_trace]; rfl
  · exact writeAddress_getLast a d
  · rw [readAdress_trace]
    simp [List.count_cons, List.count_append, count_start_readEvs]
  · rw [readAdress_trace]
    simp [List.count_cons, List.count_append, count_stop_readEvs]
  · rw [readAdress_trace]; rfl
  · exact readAdress_getLast a c s b
  · rw [readSequential_trace]
    simp [List.count_cons, List.count_append, count_start_writeMap,
      count_start_readEvs]
  · rw [readSequential_trace]
    simp [List.count_cons, List.count_append, count_stop_writeMap,
      count_stop_readEvs]
  · rw [readSequential_trace]; rfl
  · exact readSequential_getLast a tx rc s b

/-- C5: the degenerate count-0 burst read and empty burst write still
frame Start, address byte, Stop, with no data-phase events and the
caller's buffer untouched. -/
theorem c5_degenerate_transactions (a : Nat) (s b : List Nat) :
    (i2c_readAdress a 0 s b).2 =
      [Event.start, Event.write (2 * (a % 128) + 1), Event.stop]
    ∧ (i2c_readAdress a 0 s b).1 = b
    ∧ i2c_writeAddress a [] =
      [Event.start, Event.write (2 * (a % 128)), Event.stop] := by
  refine ⟨?_, rfl, ?_⟩
  · rw [readAdress_trace]; rfl
  · rw [writeAddress_trace]; rfl

/-- C6: against the simulated slave that answers register 0x10 with
0xAA, 0xBB, the write-then-read transaction at address 0x50 fills the
caller's two-byte buffer with exactly [0xAA, 0xBB], and the bus saw the
register select 0x10 between the two Starts. -/
theorem c6_roundTrip :
    (i2c_readSequential 0x50 [0x10] 2 (demoSlave [0x10]) [0, 0]).1 =
      [0xAA, 0xBB]
    ∧ (i2c_readSequential 0x50 [0x10] 2 (demoSlave [0x10]) [0, 0]).2 =
      [Event.start, Event.write 0xA0, Event.write 0x10, Event.start,
        Event.write 0xA1, Event.read true, Event.read false, Event.stop] := by
  decide

/-- Masking with the same two masks a second time changes nothing. -/
theorem land_twice (x p q : Nat) :
    x &&& p &&& q &&& p &&& q = x &&& p &&& q := by
  apply Nat.eq_of_testBit_eq
  intro i
  simp only [Nat.testBit_and]
  cases x.testBit i <;> cases p.testBit i <;> cases q.testBit i <;> rfl

/-- Boolean absorption shape underlying `bitSet` idempotence. -/
theorem bool_or_absorb : ∀ c x y : Bool,
    (c && ((c && (x || y)) || y)) = (c && (x || y)) := by decide

/-- Setting a bit that is already set changes nothing. -/
theorem bitSet_idem (r b : Nat) : bitSet (bitSet r b) b = bitSet r b := by
  unfold bitSet
  apply Nat.eq_of_testBit_eq
  intro i
  have h256 : (256 : Nat) = 2 ^ 8 := rfl
  rw [h256]
  simp only [Nat.testBit_mod_two_pow, Nat.testBit_or]
  exact bool_or_absorb _ _ _

/-- C7: running the initialization twice leaves the peripheral's
configuration registers (prescaler bits in TWSR, rate register TWBR,
enable bit in TWCR) exactly as one run does: `i2c_Init` is idempotent. -/
theorem c7_init_idempotent (s : TwiRegs) :
    i2c_Init (i2c_Init s) = i2c_Init s := by
  cases s with
  | mk twsr twbr twcr =>
    simp only [i2c_Init, bitClear, TwiRegs.mk.injEq]
    exact ⟨land_twice twsr _ _, trivial, bitSet_idem twcr TWEN⟩

/-- C8: no operation observes or propagates a slave error: the bus trace
of every read transaction is identical for every peripheral response (the
driver never inspects the status register), the operations are total with
no error in their result, every transaction runs through all its phases
and ends in the Stop, and a read always fills its full buffer length. -/
theorem c8_no_error_propagation (a c rc : Nat) (tx : List Nat)
    (s1 s2 b1 b2 : List Nat) :
    (i2c_readAdress a c s1 b1).2 = (i2c_readAdress a c s2 b2).2
    ∧ (i2c_readSequential a tx rc s1 b1).2 =
      (i2c_readSequential a tx rc s2 b2).2
    ∧ (i2c_readAdress a c s1 b1).1.length = b1.length
    ∧ ((i2c_readAdress a c s1 b1).2).getLast? = some Event.stop
    ∧ ((i2c_readSequential a tx rc s1 b1).2).getLast? = some Event.stop
    ∧ (i2c_writeAddress a tx).getLast? = some Event.stop := by
  refine ⟨?_, ?_, ?_, ?_, ?_, ?_⟩
  · rw [readAdress_trace, readAdress_trace,
      readLoopBuf_events_congr c 0 0 s1 b1 s2 b2]
  · rw [readSequential_trace, readSequential_trace,
      readLoopBuf_events_congr rc 0 0 s1 b1 s2 b2]
  · rw [readAdress_fst]; exact readLoopBuf_length c 0 s1 b1
  · exact readAdress_getLast a c s1 b1
  · exact readSequential_getLast a tx rc s1 b1
  · exact writeAddress_getLast a tx

/-- C9: a read transaction writes only the first `count` (respectively
`rxCount`) cells of the caller's buffer: every cell at an index at or
past the count keeps its value, and the buffer length never changes. -/
theorem c9_buffer_frame (a c rc j : Nat) (tx : List Nat) (s buf : List Nat)
    (h1 : c ≤ j) (h2 : rc ≤ j) :
    ((i2c_readAdress a c s buf).1)[j]? = buf[j]?
    ∧ (i2c_readAdress a c s buf).1.length = buf.length
    ∧ ((i2c_readSequential a tx rc s buf).1)[j]? = buf[j]?
    ∧ (i2c_readSequential a tx rc s buf).1.length = buf.length := by
  refine ⟨?_, ?_, ?_, ?_⟩
  · rw [readAdress_fst]
    exact readLoopBuf_frame c 0 s buf j (Or.inr (by omega))
  · rw [readAdress_fst]; exact readLoopBuf_length c 0 s buf
  · rw [readSequential_fst]
    exact readLoopBuf_frame rc 0 s buf j (Or.inr (by omega))
  · rw [readSequential_fst]; exact readLoopBuf_length rc 0 s buf

/-- Witness for C9: reading one byte into a three-byte buffer leaves the
cell at index 2 untouched. -/
theorem c9_witness :
    ((i2c_readAdress 2 1 [9] [5, 6, 7]).1)[2]? = [5, 6, 7][2]?
    ∧ (i2c_readAdress 2 1 [9] [5, 6, 7]).1.length = [5, 6, 7].length
    ∧ ((i2c_readSequential 2 [4] 1 [9] [5, 6, 7]).1)[2]? = [5, 6, 7][2]?
    ∧ (i2c_readSequential 2 [4] 1 [9] [5, 6, 7]).1.length =
      [5, 6, 7].length :=
  c9_buffer_frame 2 1 1 2 [4] [9] [5, 6, 7] (by decide) (by decide)

/-- C10: for every address value, the transmitted address byte is
`((a*2) mod 256) | direction` — the most significant bit of an 8-bit
address is discarded — and each transaction behaves exactly as it does
for `a mod 128`. -/
theorem c10_address_msb_discarded (a c rc : Nat) (d tx s b : List Nat) :
    ((a <<< 1) ||| __i2c_WriteCmd) % 256 = ((a * 2) % 256) ||| __i2c_WriteCmd
    ∧ ((a <<< 1) ||| __i2c_ReadCmd) % 256 = ((a * 2) % 256) ||| __i2c_ReadCmd
    ∧ i2c_writeAddress a d = i2c_writeAddress (a % 128) d
    ∧ i2c_readAdress a c s b = i2c_readAdress (a % 128) c s b
    ∧ i2c_readSequential a tx rc s b =
      i2c_readSequential (a % 128) tx rc s b := by
  have hmod : (a * 2) % 256 = 2 * (a % 128) := by omega
  have keyW : ((a <<< 1) ||| __i2c_WriteCmd) % 256 =
      (((a % 128) <<< 1) ||| __i2c_WriteCmd) % 256 := by
    rw [addrWrite_eq, addrWrite_eq]
    omega
  have keyR : ((a <<< 1) ||| __i2c_ReadCmd) % 256 =
      (((a % 128) <<< 1) ||| __i2c_ReadCmd) % 256 := by
    rw [addrRead_eq, addrRead_eq]
    omega
  refine ⟨?_, ?_, ?_, ?_, ?_⟩
  · rw [addrWrite_eq, __i2c_WriteCmd, Nat.or_zero, hmod]
  · rw [addrRead_eq, __i2c_ReadCmd, hmod, two_mul_lor_one]
  · simp only [i2c_writeAddress, i2c_Write, keyW]
  · simp only [i2c_readAdress, i2c_Write, keyR]
  · simp only [i2c_readSequential, i2c_Write, keyW, keyR]

end I2c
